import Mathlib

/-!
# Verification of the coroutine byte-stream framing parser

Shallow embedding of `src/02.10-coroutineParsingDataStream0/main.cpp`.

The C++ program is a coroutine-based framing parser: the `Parse` coroutine
suspends at each `co_await byte{}` and is driven one byte at a time via
`async_generator::SendSignal`; completed frames are yielded through the
promise's `mValue` and retrieved by `async_generator::operator()`.

The coroutine body (`Parse`, main.cpp lines 173-202) has four suspension
points, which we name as the four parser states together with the local
`frame` buffer:

* `Idle`            — the `co_await` at the top of the outer loop (line 175);
* `AwaitingSOF`     — the `co_await` after an `ESC` was seen while idle (line 179);
* `Capturing f`     — the `co_await` at the top of the inner capture loop
                      (line 184), with `frame = f` accumulated so far;
* `CapturingAfterEsc f` — the `co_await` after an `ESC` was seen while
                      capturing (line 188).

One resumption with byte `b` executes the straight-line code between two
suspension points; `parseStep` is that code, returning the next suspension
point and the optionally `co_yield`ed frame.  Note the fall-through in the
source: in `CapturingAfterEsc`, when `b` is `ESC` neither branch of the
inner `if` is taken, so control reaches `frame += static_cast<char>(b)`
(line 198) and loops back to the capture `co_await` — i.e. the byte `ESC`
is appended and the parser is back in `Capturing`.

Bytes are `Fin 256` (`std::byte`), frames `List Byte` (`std::string` holds
the captured bytes).
-/

set_option maxRecDepth 8192

abbrev Byte := Fin 256

/-- `static const byte ESC{'H'}` (main.cpp line 169); `'H' = 72`. -/
def ESC : Byte := 72

/-- `static const byte SOF{0x10}` (main.cpp line 170). -/
def SOF : Byte := 16

/-- The four suspension points of the `Parse` coroutine, with the local
`frame` buffer where it is live. -/
inductive ParserState where
  | Idle : ParserState
  | AwaitingSOF : ParserState
  | Capturing : List Byte → ParserState
  | CapturingAfterEsc : List Byte → ParserState
deriving DecidableEq, Repr

open ParserState

/-- One resumption of the `Parse` coroutine (main.cpp lines 173-202) with
byte `b`: the straight-line code from one suspension point to the next.
Returns the next suspension point and the frame passed to `co_yield`, if
any.

* `Idle`: `if (ESC == b)` go wait for `SOF`, else loop back (byte dropped);
* `AwaitingSOF`: `if (SOF != b) continue;` back to idle, else enter the
  capture loop with `frame` freshly empty;
* `Capturing f`: `if (ESC == b)` go look at the next byte, else
  `frame += b` and stay capturing;
* `CapturingAfterEsc f`: `if (SOF == b) { co_yield frame; break; }` —
  emit and return to idle; `else if (ESC != b) break;` — out of sync,
  frame discarded, back to idle; else (`b == ESC`) fall through to
  `frame += static_cast<char>(b)` and loop back to `Capturing`. -/
def parseStep : ParserState → Byte → ParserState × Option (List Byte)
  | Idle, b => if b = ESC then (AwaitingSOF, none) else (Idle, none)
  | AwaitingSOF, b => if b = SOF then (Capturing [], none) else (Idle, none)
  | Capturing f, b =>
      if b = ESC then (CapturingAfterEsc f, none) else (Capturing (f ++ [b]), none)
  | CapturingAfterEsc f, b =>
      if b = SOF then (Idle, some f)
      else if b ≠ ESC then (Idle, none)
      else (Capturing (f ++ [b]), none)

/-- Feed a list of bytes one at a time from state `s`; return the final
state and the frames `co_yield`ed along the way, in order. -/
def parseRun (s : ParserState) : List Byte → ParserState × List (List Byte)
  | [] => (s, [])
  | b :: rest =>
      ((parseRun (parseStep s b).1 rest).1,
       (parseStep s b).2.toList ++ (parseRun (parseStep s b).1 rest).2)

/-!
## The `async_generator` wrapper (`FSM = async_generator<std::string, byte>`)

Observable state of the generator object: the coroutine's suspension point,
the promise's yielded value `mValue` (a `std::string`, default-constructed
empty, main.cpp line 63), and the pending-signal slot `mRecentSignal`
(`std::optional<byte>`, main.cpp line 84).
-/

structure GenState where
  sp : ParserState
  mValue : List Byte
  mRecentSignal : Option Byte
deriving DecidableEq, Repr

/-- The parser right after `auto p = Parse();`: the coroutine is at its
initial suspend, which behaves exactly like being suspended at the idle
`co_await` (the first resumption runs straight to it); `mValue` is the
default-constructed empty string and no signal is pending. -/
def initGen : GenState := ⟨Idle, [], none⟩

/-- Resuming the coroutine (`mCoroHdl.resume()`): the `awaiter` at the
current suspension point reads the pending byte (`await_resume`, main.cpp
lines 91-96, which asserts the slot holds a value, takes it and calls
`mRecentSignal.reset()`), then the body runs to the next suspension point
(`parseStep`); a `co_yield` overwrites the promise's `mValue`.  After the
one pending byte is consumed the slot is empty, so the next `co_await`'s
`await_ready` is false and the coroutine suspends again: a single resume
consumes exactly one byte.  With no pending byte the coroutine just stays
suspended. -/
def resumeGen (g : GenState) : GenState :=
  match g.mRecentSignal with
  | none => g
  | some b =>
      ⟨(parseStep g.sp b).1, ((parseStep g.sp b).2).getD g.mValue, none⟩

/-- `async_generator::SendSignal` (main.cpp lines 122-127): store the byte
in `mRecentSignal`, then resume the coroutine (its `done()` is never true
here — `Parse` loops forever). -/
def sendSignal (g : GenState) (b : Byte) : GenState :=
  resumeGen ⟨g.sp, g.mValue, some b⟩

/-- `async_generator::operator()` (main.cpp lines 112-120): move `mValue`
out (which may leave it unspecified) and explicitly clear it, returning
the moved-out string. -/
def pollFrame (g : GenState) : List Byte × GenState :=
  (g.mValue, ⟨g.sp, [], g.mRecentSignal⟩)

/-- `ProcessStream` (main.cpp lines 214-223): for each byte of the stream,
`parse.SendSignal(b)`, then `if (const auto &res = parse(); res.length())
HandleFrame(res);`.  Returns the parser state after the stream is drained
and the frames passed to `HandleFrame`, in order. -/
def processStream (g : GenState) : List Byte → GenState × List (List Byte)
  | [] => (g, [])
  | b :: rest =>
      ((processStream (pollFrame (sendSignal g b)).2 rest).1,
       (if (pollFrame (sendSignal g b)).1.length ≠ 0
        then [(pollFrame (sendSignal g b)).1] else [])
         ++ (processStream (pollFrame (sendSignal g b)).2 rest).2)

/-- Feed bytes through `SendSignal` only, with no intervening polls. -/
def sendAll (g : GenState) (bs : List Byte) : GenState := bs.foldl sendSignal g

/-!
## The byte source (`generator<byte> sender`, main.cpp lines 205-209)

`sender` yields each element of its vector in order; the driving
`coro_iterator::iterator` (main.cpp lines 36-57) resumes once on
construction (`begin`) and once per `operator++`, reading
`promise().mValue` in between and recording `mDone = mCoroHdl.done()`
after each resume.  We model its observable state as the bytes not yet
yielded, the promise's current `mValue`, and the done flag.
-/

structure SenderState where
  remaining : List Byte
  mValue : Byte
  mDone : Bool
deriving DecidableEq, Repr

/-- The sender coroutine right after `sender(fakeBytes)`: suspended at its
initial suspend, nothing yielded yet (`mValue` default-initialized to 0),
not done. -/
def senderInit (bs : List Byte) : SenderState := ⟨bs, 0, false⟩

/-- One resumption of the `sender` coroutine: `co_yield` the next byte of
the vector, or run off the end of the `for` loop and finish (`mDone`
becomes true, `mValue` untouched). -/
def senderResume (s : SenderState) : SenderState :=
  match s.remaining with
  | [] => ⟨[], s.mValue, true⟩
  | b :: rest => ⟨rest, b, false⟩

/-- `n` successive resumptions. -/
def senderResumeN (s : SenderState) : Nat → SenderState
  | 0 => s
  | n + 1 => senderResumeN (senderResume s) n

/-- The full sequence of values observed by a range-`for` over the
iterator: resume, and while not done, read `mValue` and resume again
(mirrors `begin`/`operator++`/`operator*` of `coro_iterator::iterator`).
Structurally recursive on the bytes still to be yielded, unfolding
`senderResume` one resumption at a time. -/
def senderCollect (s : SenderState) : List Byte :=
  match h : s.remaining with
  | [] => []
  | b :: rest => b :: senderCollect ⟨rest, b, false⟩
termination_by s.remaining.length
decreasing_by exact h ▸ Nat.lt_succ_self rest.length

/-- `fakeBytes1` (main.cpp lines 233-235): `0x70, ESC, SOF, ESC,
'H','e','l','l','o', ESC, SOF, 0x7, ESC, SOF`.  Note `'H' = 72 = ESC`. -/
def fakeBytes1 : List Byte :=
  [112, ESC, SOF, ESC, 72, 101, 108, 108, 111, ESC, SOF, 7, ESC, SOF]

/-- `fakeBytes2` (main.cpp line 241): `'W','o','r','l','d', ESC, SOF, 0x99`. -/
def fakeBytes2 : List Byte := [87, 111, 114, 108, 100, ESC, SOF, 153]

/-- "Hello" as bytes. -/
def helloBytes : List Byte := [72, 101, 108, 108, 111]

/-- "World" as bytes. -/
def worldBytes : List Byte := [87, 111, 114, 108, 100]

/-!
## Helper lemmas
-/

/-- While capturing with buffer `acc`, a run of non-`ESC` bytes is appended
verbatim, and a closing `ESC SOF` emits exactly the accumulated frame and
returns to `Idle`. -/
theorem parseRun_capture : ∀ (ds : List Byte), (∀ d ∈ ds, d ≠ ESC) → ∀ (acc : List Byte),
    parseRun (Capturing acc) (ds ++ [ESC, SOF]) = (Idle, [acc ++ ds])
  | [], _, acc => by simp [parseRun, parseStep]
  | d :: ds, h, acc => by
      have hd : d ≠ ESC := h d (by simp)
      have ih := parseRun_capture ds (fun x hx => h x (by simp [hx])) (acc ++ [d])
      simp [parseRun, parseStep, hd, ih]

/-- Processing a concatenated byte list is the same as processing the two
halves in sequence from the intermediate state, concatenating the emitted
frames. -/
theorem parseRun_append (s : ParserState) (A B : List Byte) :
    parseRun s (A ++ B)
      = ((parseRun (parseRun s A).1 B).1,
         (parseRun s A).2 ++ (parseRun (parseRun s A).1 B).2) := by
  induction A generalizing s with
  | nil => simp [parseRun]
  | cons a A ih => simp [parseRun, ih]

/-- Resuming the sender over its whole buffer, reading each yielded value,
recovers the buffer (any previously yielded value in `mValue` is
irrelevant). -/
theorem senderCollect_eq : ∀ (bs : List Byte) (v : Byte),
    senderCollect ⟨bs, v, false⟩ = bs
  | [], _ => by simp [senderCollect]
  | b :: rest, v => by
      rw [senderCollect]
      simp [senderCollect_eq rest b]

/-- After `i + 1` resumptions, `i < length`, the sender has yielded the
`i`-th byte of its buffer and is not done. -/
theorem senderResumeN_mid : ∀ (bs : List Byte) (i : Nat), i < bs.length → ∀ (v : Byte),
    (senderResumeN ⟨bs, v, false⟩ (i + 1)).mDone = false ∧
    bs[i]? = some (senderResumeN ⟨bs, v, false⟩ (i + 1)).mValue
  | b :: rest, 0, _, v => by simp [senderResumeN, senderResume]
  | b :: rest, i + 1, h, v => by
      have ih := senderResumeN_mid rest i (by simpa using h) b
      simpa [senderResumeN, senderResume] using ih

/-- One resumption past the end of the buffer, the sender coroutine has
finished: `done()` is true. -/
theorem senderResumeN_done : ∀ (bs : List Byte) (v : Byte),
    (senderResumeN ⟨bs, v, false⟩ (bs.length + 1)).mDone = true
  | [], v => by simp [senderResumeN, senderResume]
  | b :: rest, v => by
      simpa [senderResumeN, senderResume] using senderResumeN_done rest b

/-!
## Claim theorems
-/

/-- C1: feeding `fakeBytes1` (`0x70, ESC, SOF, ESC, 'H','e','l','l','o',
ESC, SOF, 0x07, ESC, SOF`) to a fresh parser makes the driver handle
exactly one frame, the text "Hello"; then feeding `fakeBytes2`
(`'W','o','r','l','d', ESC, SOF, 0x99`) to the same parser instance makes
it handle exactly one more frame, the text "World". -/
theorem C1_main_scenario :
    (processStream initGen fakeBytes1).2 = [helloBytes] ∧
    (processStream (processStream initGen fakeBytes1).1 fakeBytes2).2 = [worldBytes] := by
  decide

/-- C2 counterexample: in state `CapturingAfterEsc []`, receiving `ESC`
does not leave the parser in `CapturingAfterEsc []` with nothing appended;
it moves to `Capturing [ESC]`, the `ESC` having been appended to the
frame buffer. -/
theorem C2_counterexample :
    (parseStep (CapturingAfterEsc []) ESC).1 ≠ CapturingAfterEsc [] ∧
    (parseStep (CapturingAfterEsc []) ESC).1 = Capturing [ESC] := by
  decide

/-- C2 (amended): whenever the parser is in `CapturingAfterEsc` and the
next byte is again `ESC`, it appends that single `ESC` byte to the frame
buffer and transitions to `Capturing` (no frame emitted), so the byte that
follows is interpreted as an ordinary byte of the capture loop:
`ESC ESC` inside a frame encodes one literal `ESC` data byte. -/
theorem C2_escEsc_appends (f : List Byte) :
    parseStep (CapturingAfterEsc f) ESC = (Capturing (f ++ [ESC]), none) := rfl

/-- C3: for every data list whose bytes are neither `ESC` nor `SOF`, the
sequence `ESC SOF <data> ESC SOF` fed from `Idle` emits exactly one frame,
equal to the data, and returns to `Idle`. -/
theorem C3_wellformed_frame (ds : List Byte) (h : ∀ d ∈ ds, d ≠ ESC ∧ d ≠ SOF) :
    parseRun Idle ([ESC, SOF] ++ ds ++ [ESC, SOF]) = (Idle, [ds]) := by
  have hcap := parseRun_capture ds (fun d hd => (h d hd).1) []
  simp [parseRun, parseStep, hcap]

/-- C3 witness at data `[1, 2]`. -/
theorem C3_wellformed_frame_witness :
    parseRun Idle ([ESC, SOF] ++ [1, 2] ++ [ESC, SOF]) = (Idle, [[1, 2]]) :=
  C3_wellformed_frame [1, 2] (by decide)

/-- C4: `ESC SOF d1 d2 ESC X` with `X` neither `SOF` nor `ESC` (and `d1`,
`d2` ordinary data bytes) emits no frame, silently drops the in-progress
buffer and returns to `Idle`, after which a well-formed
`ESC SOF <data> ESC SOF` still parses into exactly one correct frame. -/
theorem C4_desync_recovers (d1 d2 x : Byte)
    (hd1 : d1 ≠ ESC) (hd2 : d2 ≠ ESC) (hx1 : x ≠ SOF) (hx2 : x ≠ ESC)
    (ds : List Byte) (h : ∀ d ∈ ds, d ≠ ESC) :
    parseRun Idle [ESC, SOF, d1, d2, ESC, x] = (Idle, []) ∧
    parseRun Idle ([ESC, SOF, d1, d2, ESC, x] ++ [ESC, SOF] ++ ds ++ [ESC, SOF])
      = (Idle, [ds]) := by
  have hcap := parseRun_capture ds h []
  constructor
  · simp [parseRun, parseStep, hd1, hd2, hx1, hx2]
  · simp [parseRun, parseStep, hd1, hd2, hx1, hx2, hcap]

/-- C4 witness at `d1 = 1`, `d2 = 2`, `X = 3`, recovery data `[4, 5]`. -/
theorem C4_desync_recovers_witness :
    parseRun Idle [ESC, SOF, 1, 2, ESC, 3] = (Idle, []) ∧
    parseRun Idle ([ESC, SOF, 1, 2, ESC, 3] ++ [ESC, SOF] ++ [4, 5] ++ [ESC, SOF])
      = (Idle, [[4, 5]]) :=
  C4_desync_recovers 1 2 3 (by decide) (by decide) (by decide) (by decide)
    [4, 5] (by decide)

/-- C5: parser state and in-progress frame persist across byte sources:
driving the parser with stream `A` and then, from the resulting parser
state, with stream `B` handles exactly the frames of the single
concatenated stream `A ++ B` — nothing is reset between sources, and each
frame (including one split across the two sources) is handled exactly
once. -/
theorem C5_state_persists (g : GenState) (A B : List Byte) :
    processStream g (A ++ B)
      = ((processStream (processStream g A).1 B).1,
         (processStream g A).2 ++ (processStream (processStream g A).1 B).2) := by
  induction A generalizing g with
  | nil => simp [processStream]
  | cons a A ih => simp [processStream, ih]

/-- C6: polling is idempotent absent new completions: after one poll has
returned the pending frame, a second poll returns the empty value and
leaves the generator state unchanged, so each completed frame is returned
at most once. -/
theorem C6_poll_idempotent (g : GenState) :
    (pollFrame (pollFrame g).2).1 = [] ∧
    (pollFrame (pollFrame g).2).2 = (pollFrame g).2 :=
  ⟨rfl, rfl⟩

/-- C7: a byte list containing neither `ESC` nor `SOF`, fed from `Idle`,
emits no frame and leaves the parser in `Idle`. -/
theorem C7_idle_discards : ∀ (bs : List Byte), (∀ b ∈ bs, b ≠ ESC ∧ b ≠ SOF) →
    parseRun Idle bs = (Idle, [])
  | [], _ => rfl
  | b :: rest, h => by
      have hb : b ≠ ESC := (h b (by simp)).1
      have ih := C7_idle_discards rest (fun x hx => h x (by simp [hx]))
      simp [parseRun, parseStep, hb, ih]

/-- C7 witness at bytes `[1, 2, 3]`. -/
theorem C7_idle_discards_witness :
    parseRun Idle [1, 2, 3] = (Idle, []) :=
  C7_idle_discards [1, 2, 3] (by decide)

/-- C8: a sender built over a fixed byte list yields exactly that list,
one element per resumption, in order (resumption `i + 1` yields element
`i`, with the coroutine not yet done), and reports done on the resumption
after the last element. -/
theorem C8_sender_produces (bs : List Byte) (i : Nat) (h : i < bs.length) :
    senderCollect (senderInit bs) = bs ∧
    bs[i]? = some (senderResumeN (senderInit bs) (i + 1)).mValue ∧
    (senderResumeN (senderInit bs) (i + 1)).mDone = false ∧
    (senderResumeN (senderInit bs) (bs.length + 1)).mDone = true :=
  ⟨senderCollect_eq bs 0, (senderResumeN_mid bs i h 0).2,
   (senderResumeN_mid bs i h 0).1, senderResumeN_done bs 0⟩

/-- C8 witness at buffer `[3, 9]`, resumption index `1`. -/
theorem C8_sender_produces_witness :
    senderCollect (senderInit [3, 9]) = [3, 9] ∧
    ([3, 9] : List Byte)[1]? = some (senderResumeN (senderInit [3, 9]) 2).mValue ∧
    (senderResumeN (senderInit [3, 9]) 2).mDone = false ∧
    (senderResumeN (senderInit [3, 9]) 3).mDone = true :=
  C8_sender_produces [3, 9] 1 (by decide)

/-- C9: `SendSignal` delivers exactly one byte synchronously: when it
returns, the pending-signal slot is empty again (the byte was consumed),
and the coroutine has advanced by exactly the one step on that byte. -/
theorem C9_signal_synchronous (g : GenState) (b : Byte) :
    (sendSignal g b).mRecentSignal = none ∧
    (sendSignal g b).sp = (parseStep g.sp b).1 :=
  ⟨rfl, rfl⟩

/-- C10: `ESC SOF ESC SOF` completes an empty frame (the parser yields
it), but polling reports it as the empty value — exactly what a poll with
no completed frame returns — so the driver's length check never fires and
the frame handler is never invoked for it. -/
theorem C10_empty_frame_invisible :
    (parseRun Idle [ESC, SOF, ESC, SOF]).2 = [[]] ∧
    (pollFrame (sendAll initGen [ESC, SOF, ESC, SOF])).1 = [] ∧
    (pollFrame initGen).1 = [] ∧
    (processStream initGen [ESC, SOF, ESC, SOF]).2 = [] := by
  decide
